import Mathlib

/-!
Verification of the streaming batch-loader contract exercised by the
notebooks in src/.  The loader implementation itself (pyTigerGraph
gds/dataloaders.py) ships outside src/; the notebooks record its observable
behaviour, and the stack trace captured in src/unnamed/part_000 reveals the
exact code path taken for a single-batch iteration: BaseLoader.__iter__
(line 1204) returns iter([self.data]), BaseLoader.data (lines 1232-1234)
resets, starts the background producer thread and blocks in
self._data_q.get(), the producer runs BaseLoader._read_data (line 587)
which feeds every raw batch through BaseLoader._parse_data, whose tail
(line 965) is: if callback_fn: return callback_fn(data) else return data.
Parts that the trace does not reveal are modelled from the spec and marked
as such in their doc comments.
-/

namespace QA4137

/-- Wire-level or assembled table: column names in order plus row-major cell
values (one list of cells per row, positional with respect to cols). -/
structure Table where
  cols : List String
  rows : List (List String)
deriving DecidableEq

/-- Batch delivered to the consumer: a single flat table (homogeneous mode,
as in the Cora runs) or a mapping from element-type name to table
(heterogeneous mode, as in the loader3 and loader4 runs). -/
inductive Batch where
  | table (t : Table)
  | hetero (m : List (String × Table))
deriving DecidableEq

/-- Python value passed as the callback_fn argument of a loader.  The
notebooks pass a function, the integer 0 and the plain string
"uncallble_string". -/
inductive CallbackVal where
  | pyNone
  | pyInt (n : Int)
  | pyStr (s : String)
  | pyFn (f : Batch → Batch)

/-- Python truthiness of a callback value: None and 0 are falsy, a nonempty
string and a function are truthy. -/
def CallbackVal.truthy : CallbackVal → Bool
  | .pyNone => false
  | .pyInt n => n != 0
  | .pyStr s => !s.isEmpty
  | .pyFn _ => true

/-- Exception raised inside the producer thread; the recorded trace shows
TypeError: str object is not callable. -/
inductive PyError where
  | typeErrorNotCallable
deriving DecidableEq

/-- Synchronous configuration failures named by the spec (section 7). -/
inductive ConfigError where
  | bothSizingParams
  | neitherSizingParam
  | callbackNotInvocable
deriving DecidableEq

/-- Tail of BaseLoader._parse_data as revealed by the stack trace recorded in
src/unnamed/part_000 (dataloaders.py line 965): when the stored callback_fn
is truthy it is called on the parsed data - calling a non-callable value
such as a string raises TypeError - and when it is falsy the parsed data is
returned unchanged. -/
def parse_data (callback_fn : CallbackVal) (data : Batch) : Except PyError Batch :=
  if callback_fn.truthy then
    match callback_fn with
    | .pyFn f => .ok (f data)
    | _ => .error .typeErrorNotCallable
  else .ok data

/-- Loader construction as exercised by the notebooks in src/: the
callback_fn argument is stored as given and no invocability validation is
performed at construction time (testcase2 of src/unnamed/part_000 constructs
a loader whose callback_fn is the plain string "uncallble_string" without
any synchronous error). -/
def constructLoader (callback_fn : CallbackVal) : Except ConfigError CallbackVal :=
  .ok callback_fn

/-- Outcome observed by the consumer of the single-batch path. -/
inductive ConsumeOutcome where
  | delivered (b : Batch)
  | blockedForever
  | raisedConfigError (e : ConfigError)
deriving DecidableEq

/-- Execution trace of one iteration of the loader, recording whether a
background producer thread was spawned and whether the bounded queue was
used to hand the batch over. -/
structure RunTrace where
  outcome : ConsumeOutcome
  workerSpawned : Bool
  usedQueue : Bool
deriving DecidableEq

/-- Iteration with num_batches = 1, reconstructed from the stack trace
recorded in src/unnamed/part_000: BaseLoader.__iter__ (line 1204) returns
iter([self.data]); BaseLoader.data (lines 1232-1234) calls _reset and _start,
spawning the producer thread (Thread-7 running _read_data), and then blocks
in self._data_q.get().  The producer feeds the raw batch through
BaseLoader._parse_data; when that raises (line 965), the exception is logged
inside the thread, nothing is ever enqueued, and the consumer blocks
forever - the recorded run had to be interrupted by hand. -/
def iterSingleBatch (raw : Batch) (callback_fn : CallbackVal) : RunTrace :=
  match parse_data callback_fn raw with
  | .ok b => { outcome := .delivered b, workerSpawned := true, usedQueue := true }
  | .error _ => { outcome := .blockedForever, workerSpawned := true, usedQueue := true }

/-- Producer loop of BaseLoader._read_data (dataloaders.py line 587, from the
stack trace in src/unnamed/part_000): every raw batch is passed through
BaseLoader._parse_data before being enqueued, in plan order.  The second
component counts how many times the stored callback value was called. -/
def read_data (callback_fn : CallbackVal) : List Batch → Except PyError (List Batch) × Nat
  | [] => (.ok [], 0)
  | b :: rest =>
    let calls : Nat := if callback_fn.truthy then 1 else 0
    match parse_data callback_fn b with
    | .error e => (.error e, calls)
    | .ok b2 =>
      match read_data callback_fn rest with
      | (.ok bs, n) => (.ok (b2 :: bs), calls + n)
      | (.error e, n) => (.error e, calls + n)

/-- Concrete stand-in for the assembled Cora vertex batch of the recorded
runs (header vid, id, x, y; first data row of the recorded output). -/
def coraBatch : Batch :=
  .table { cols := ["vid", "id", "x", "y"], rows := [["100663296", "2703", "0 0 0 1", "3"]] }

theorem read_data_falsy (cb : CallbackVal) (h : cb.truthy = false) (raws : List Batch) :
    read_data cb raws = (.ok raws, 0) := by
  induction raws with
  | nil => rfl
  | cons b rest ih => simp [read_data, parse_data, h, ih]

/-- C1: constructing a loader whose callback_fn is the plain string
"uncallble_string" does NOT fail synchronously with a ConfigError; the
num_batches = 1 path spawns the producer thread, the thread dies on a
TypeError, and the consumer blocks forever on the empty queue.  This
evaluates the embedded code at the failing input recorded in testcase2 of
src/unnamed/part_000 and exhibits the hang the claim forbids. -/
theorem C1_noninvocable_callback_hangs :
    constructLoader (.pyStr "uncallble_string") = .ok (.pyStr "uncallble_string")
    ∧ (iterSingleBatch coraBatch (.pyStr "uncallble_string")).outcome = .blockedForever
    ∧ (iterSingleBatch coraBatch (.pyStr "uncallble_string")).workerSpawned = true := by
  refine ⟨rfl, ?_, ?_⟩ <;> rfl

/-- C2 counterexample: even with num_batches = 1 and no effective callback,
the single-batch path spawns the background producer thread and hands the
batch over through the queue (workerSpawned and usedQueue are true), refuting
the claim that this path creates no background worker thread and no queue. -/
theorem C2_single_batch_path_spawns_worker :
    (iterSingleBatch coraBatch (.pyInt 0)).workerSpawned = true
    ∧ (iterSingleBatch coraBatch (.pyInt 0)).usedQueue = true
    ∧ (iterSingleBatch coraBatch (.pyInt 0)).outcome = .delivered coraBatch := by
  refine ⟨rfl, ?_, ?_⟩ <;> rfl

/-- C4: with a function callback, the producer invokes the callback exactly
once per batch (the invocation count equals the number of batches), with the
assembled batch as sole input, and its return value - however reshaped or
restricted - replaces the original batch as the unit delivered; no shape
validation is imposed (f is an arbitrary Batch transformation). -/
theorem C4_callback_once_per_batch (f : Batch → Batch) (raws : List Batch) :
    read_data (.pyFn f) raws = (.ok (raws.map f), raws.length) := by
  induction raws with
  | nil => rfl
  | cons b rest ih =>
    simp [read_data, parse_data, CallbackVal.truthy, ih, Nat.add_comm]

/-- C10: a loader whose callback_fn is the falsy integer 0 is constructed
without error, the producer never calls the value, every delivered batch
equals the original assembled batch, and the run is identical to one with no
callback supplied at all (testcase1 of src/unnamed/part_000). -/
theorem C10_falsy_callback_treated_as_absent (raws : List Batch) (raw : Batch) :
    constructLoader (.pyInt 0) = .ok (.pyInt 0)
    ∧ read_data (.pyInt 0) raws = (.ok raws, 0)
    ∧ read_data (.pyInt 0) raws = read_data .pyNone raws
    ∧ (iterSingleBatch raw (.pyInt 0)).outcome = .delivered raw := by
  refine ⟨rfl, read_data_falsy (.pyInt 0) rfl raws, ?_, ?_⟩
  · rw [read_data_falsy (.pyInt 0) rfl raws, read_data_falsy .pyNone rfl raws]
  · rfl

/-- Ceiling division, the sizing computation named by the spec (section 4.1):
ceil of a divided by b. -/
def ceilDiv (a b : Nat) : Nat := (a + b - 1) / b

/-- Modelled from the spec: section 4.1 Partition Planner - the concrete
partitioning query is server-side and not part of src/, so the plan is
modelled as splitting the ordered filtered element list into consecutive
partitions of at most k elements.  The fuel argument bounds the recursion
by the list length. -/
def chunksAux (k : Nat) : Nat → List α → List (List α)
  | 0, _ => []
  | _ + 1, [] => []
  | n + 1, x :: xs => (x :: xs).take k :: chunksAux k n ((x :: xs).drop k)

/-- Partition plan: the filtered element list split into batches of at most
k elements, in order. -/
def chunks (k : Nat) (xs : List α) : List (List α) := chunksAux k xs.length xs

theorem chunksAux_nil (k n : Nat) : chunksAux k n ([] : List α) = [] := by
  cases n <;> rfl

theorem chunksAux_flatten (k : Nat) (hk : 0 < k) :
    ∀ (n : Nat) (xs : List α), xs.length ≤ n → (chunksAux k n xs).flatten = xs := by
  intro n
  induction n with
  | zero =>
    intro xs hxs
    rw [List.length_eq_zero.mp (Nat.le_zero.mp hxs)]
    rfl
  | succ n ih =>
    intro xs hxs
    match xs with
    | [] => rfl
    | x :: rest =>
      have hdrop : ((x :: rest).drop k).length ≤ n := by
        rw [List.length_drop]
        simp only [List.length_cons] at hxs ⊢
        omega
      simp only [chunksAux, List.flatten_cons, ih _ hdrop, List.take_append_drop]

theorem chunks_flatten (k : Nat) (hk : 0 < k) (xs : List α) :
    (chunks k xs).flatten = xs :=
  chunksAux_flatten k hk xs.length xs (Nat.le_refl _)

theorem ceilDiv_step {k m : Nat} (hk : 0 < k) (hm : 0 < m) :
    ceilDiv m k = ceilDiv (m - k) k + 1 := by
  unfold ceilDiv
  rcases le_or_lt m k with h | h
  · have h1 : m + k - 1 = (m - 1) + k := by omega
    have h2 : m - k = 0 := by omega
    rw [h1, Nat.add_div_right _ hk, h2]
    have h3 : (m - 1) / k = 0 := Nat.div_eq_of_lt (by omega)
    have h4 : (0 + k - 1) / k = 0 := Nat.div_eq_of_lt (by omega)
    rw [h3, h4]
  · have h1 : m + k - 1 = ((m - k) + k - 1) + k := by omega
    rw [h1, Nat.add_div_right _ hk]

theorem chunksAux_length (k : Nat) (hk : 0 < k) :
    ∀ (n : Nat) (xs : List α), xs.length ≤ n →
      (chunksAux k n xs).length = ceilDiv xs.length k := by
  intro n
  induction n with
  | zero =>
    intro xs hxs
    rw [List.length_eq_zero.mp (Nat.le_zero.mp hxs)]
    simp [chunksAux, ceilDiv, Nat.div_eq_of_lt (show k - 1 < k by omega)]
  | succ n ih =>
    intro xs hxs
    match xs with
    | [] => simp [chunksAux, ceilDiv, Nat.div_eq_of_lt (show k - 1 < k by omega)]
    | x :: rest =>
      have hdrop : ((x :: rest).drop k).length ≤ n := by
        rw [List.length_drop]
        simp only [List.length_cons] at hxs ⊢
        omega
      have hpos : 0 < (x :: rest).length := by simp
      rw [show chunksAux k (n + 1) (x :: rest)
            = (x :: rest).take k :: chunksAux k n ((x :: rest).drop k) from rfl,
        List.length_cons, ih _ hdrop, List.length_drop,
        ceilDiv_step hk hpos]

theorem chunks_length (k : Nat) (hk : 0 < k) (xs : List α) :
    (chunks k xs).length = ceilDiv xs.length k :=
  chunksAux_length k hk xs.length xs (Nat.le_refl _)

theorem chunks_singleton (xs : List α) (hne : xs ≠ []) :
    chunks xs.length xs = [xs] := by
  match xs with
  | [] => exact absurd rfl hne
  | x :: rest =>
    show chunksAux _ (rest.length + 1) _ = _
    rw [show chunksAux (x :: rest).length (rest.length + 1) (x :: rest)
          = (x :: rest).take (x :: rest).length
            :: chunksAux (x :: rest).length rest.length ((x :: rest).drop (x :: rest).length)
        from rfl,
      List.take_length, List.drop_length, chunksAux_nil]

/-- Modelled from the spec: section 4.1 - exactly one of batch_size and
num_batches must be supplied; the other is computed from the total element
count by ceiling division; supplying both or neither is a ConfigError.  The
result pairs the resolved batch_size with the resolved num_batches. -/
def resolveSizing (total : Nat) (batch_size num_batches : Option Nat) :
    Except ConfigError (Nat × Nat) :=
  match batch_size, num_batches with
  | some bs, none => .ok (bs, ceilDiv total bs)
  | none, some nb => .ok (ceilDiv total nb, nb)
  | some _, some _ => .error .bothSizingParams
  | none, none => .error .neitherSizingParam

/-- Modelled from the spec: sections 3, 4.2 and 8 - one full production pass.
When shuffle is false the server iterates the stable deterministic order of
the filtered elements; when shuffle is true it iterates an arbitrary
server-chosen rearrangement, modelled by the rearrange parameter; the pass
then emits the planned partitions in order. -/
def runPass (shuffle : Bool) (rearrange : List Nat → List Nat) (size : Nat)
    (filtered : List Nat) : List (List Nat) :=
  chunks size (if shuffle then rearrange filtered else filtered)

/-- C8: supplying exactly one of batch_size and num_batches resolves the
other by ceiling division of the total element count, and supplying both or
neither fails with a ConfigError. -/
theorem C8_sizing_xor (total bs nb : Nat) :
    resolveSizing total (some bs) none = .ok (bs, ceilDiv total bs)
    ∧ resolveSizing total none (some nb) = .ok (ceilDiv total nb, nb)
    ∧ resolveSizing total (some bs) (some nb) = .error .bothSizingParams
    ∧ resolveSizing total none none = .error .neitherSizingParam :=
  ⟨rfl, rfl, rfl, rfl⟩

/-- C3: over one full pass, for any arrival order of the planned partitions
(plan order for the Bulk transport, an arbitrary permutation for the
Streamed transport), every element passing the filter appears in the
delivered batches exactly as often as in the filtered set - exactly once
when the elements are distinct - and the batch row counts sum to the
filtered total. -/
theorem C3_exactly_once (elems : List Nat) (filt : Nat → Bool) (size : Nat)
    (hsize : 0 < size) (arrival : List (List Nat))
    (harr : arrival.Perm (chunks size (elems.filter filt))) :
    (∀ v, arrival.flatten.count v = (elems.filter filt).count v)
    ∧ (arrival.map List.length).sum = (elems.filter filt).length
    ∧ (elems.Nodup → ∀ v ∈ elems.filter filt, arrival.flatten.count v = 1) := by
  have hstep : ∀ v, arrival.flatten.count v = (elems.filter filt).count v := by
    intro v
    rw [List.count_flatten, (harr.map (List.count v)).sum_eq, ← List.count_flatten,
      chunks_flatten size hsize]
  refine ⟨hstep, ?_, ?_⟩
  · rw [(harr.map List.length).sum_eq, ← List.length_flatten, chunks_flatten size hsize]
  · intro hnd v hv
    rw [hstep v]
    exact List.count_eq_one_of_mem (hnd.filter filt) hv

/-- C3 witness: a concrete pass over the three distinct elements 1, 2, 3
split into partitions of size two, delivered in a permuted arrival order. -/
theorem C3_exactly_once_witness :
    ([[3], [1, 2]] : List (List Nat)).flatten.count 2
        = ([1, 2, 3].filter (fun _ => true)).count 2
    ∧ ([[3], [1, 2]] : List (List Nat)).flatten.count 2 = 1 := by
  have h := C3_exactly_once [1, 2, 3] (fun _ => true) 2 (by omega) [[3], [1, 2]]
    (by decide)
  exact ⟨h.1 2, h.2.2 (by decide) 2 (by decide)⟩

/-- C7: with identical configuration over an unmodified dataset, two passes
with shuffle off yield identical partition contents in identical order
whatever the server-side nondeterminism source does; two passes with shuffle
on yield the same multiset of elements; and with shuffle on the batch
sequences of two passes can genuinely differ, so no ordering guarantee
holds. -/
theorem C7_shuffle_determinism :
    (∀ (size : Nat) (filtered : List Nat) (r1 r2 : List Nat → List Nat),
        runPass false r1 size filtered = runPass false r2 size filtered)
    ∧ (∀ (size : Nat) (filtered : List Nat) (r1 r2 : List Nat → List Nat),
        0 < size → (∀ l, (r1 l).Perm l) → (∀ l, (r2 l).Perm l) →
          (runPass true r1 size filtered).flatten.Perm
            (runPass true r2 size filtered).flatten)
    ∧ (∃ (r1 r2 : List Nat → List Nat),
        (∀ l, (r1 l).Perm l) ∧ (∀ l, (r2 l).Perm l)
        ∧ runPass true r1 2 [1, 2] ≠ runPass true r2 2 [1, 2]) := by
  refine ⟨fun _ _ _ _ => rfl, ?_, ?_⟩
  · intro size filtered r1 r2 hs h1 h2
    rw [runPass, runPass]
    simp only [if_pos]
    rw [chunks_flatten size hs, chunks_flatten size hs]
    exact (h1 filtered).trans (h2 filtered).symm
  · refine ⟨id, List.reverse, fun l => List.Perm.refl l, fun l => l.reverse_perm, ?_⟩
    decide

/-- C7 witness: the multiset-equality part applied to a concrete shuffled
dataset with the identity and the reversing rearrangements. -/
theorem C7_shuffle_determinism_witness :
    (runPass true id 2 [1, 2, 3]).flatten.Perm
      (runPass true List.reverse 2 [1, 2, 3]).flatten :=
  C7_shuffle_determinism.2.1 2 [1, 2, 3] id List.reverse (by omega)
    (fun l => List.Perm.refl l) (fun l => l.reverse_perm)

/-- C2 amended: with num_batches = 1 the plan collapses to a single partition
holding the whole filtered element list, and the single-batch iteration path
delivers exactly that one precomputed batch - but it does so through the
background producer thread and the bounded queue reached via the data
property, not synchronously inline (see C2_single_batch_path_spawns_worker). -/
theorem C2_single_batch_content (elems : List Nat) (filt : Nat → Bool)
    (hne : elems.filter filt ≠ []) :
    resolveSizing (elems.filter filt).length none (some 1)
        = .ok ((elems.filter filt).length, 1)
    ∧ chunks (elems.filter filt).length (elems.filter filt) = [elems.filter filt]
    ∧ ∀ (raw : Batch),
        (iterSingleBatch raw .pyNone).outcome = .delivered raw
        ∧ (iterSingleBatch raw .pyNone).workerSpawned = true := by
  refine ⟨?_, chunks_singleton _ hne, fun raw => ⟨rfl, rfl⟩⟩
  simp [resolveSizing, ceilDiv]

/-- C2 witness: the amended statement at the concrete filtered list 1, 2, 3
and the concrete Cora batch. -/
theorem C2_single_batch_content_witness :
    chunks ([1, 2, 3].filter (fun _ => true)).length ([1, 2, 3].filter (fun _ => true))
        = [[1, 2, 3].filter (fun _ => true)]
    ∧ (iterSingleBatch coraBatch .pyNone).outcome = .delivered coraBatch := by
  have h := C2_single_batch_content [1, 2, 3] (fun _ => true) (by decide)
  exact ⟨h.2.1, (h.2.2 coraBatch).1⟩

/-- Result of the data property: the sole batch, or the loader instance
itself. -/
inductive DataResult where
  | batch (b : Batch)
  | loaderSelf
deriving DecidableEq

/-- Consumer-visible loader state for the data property: the configured
batch count, the cache self._data, and how many production passes have been
started. -/
structure LoaderState where
  num_batches : Nat
  cached : Option Batch
  passesStarted : Nat
deriving DecidableEq

/-- BaseLoader.data property, reconstructed from the stack trace recorded in
src/unnamed/part_000 (dataloaders.py lines 1228-1236) together with spec
section 4.5: with num_batches equal to one the sole batch is produced on
first access (reset, start, queue get - counted in passesStarted) and cached
in self._data, and later accesses return the cache; with more than one batch
the property returns the loader instance itself and touches no production
state.  The produce argument stands for the batch a started pass delivers. -/
def dataAccess (produce : Batch) (s : LoaderState) : DataResult × LoaderState :=
  if s.num_batches = 1 then
    match s.cached with
    | some b => (.batch b, s)
    | none =>
      (.batch produce,
        { s with cached := some produce, passesStarted := s.passesStarted + 1 })
  else (.loaderSelf, s)

/-- C5: the data accessor yields the sole batch when num_batches is one
(the freshly produced batch on first access, the cached one afterwards) and
the loader instance itself otherwise; a repeated access never starts a
second production pass, and any single access starts at most one. -/
theorem C5_data_accessor (produce : Batch) (s : LoaderState) :
    (s.num_batches = 1 → s.cached = none → (dataAccess produce s).1 = .batch produce)
    ∧ (∀ b, s.num_batches = 1 → s.cached = some b → dataAccess produce s = (.batch b, s))
    ∧ (s.num_batches ≠ 1 → dataAccess produce s = (.loaderSelf, s))
    ∧ (dataAccess produce (dataAccess produce s).2).2.passesStarted
        = (dataAccess produce s).2.passesStarted
    ∧ (dataAccess produce s).2.passesStarted ≤ s.passesStarted + 1 := by
  by_cases h1 : s.num_batches = 1
  · cases hc : s.cached with
    | none => simp [dataAccess, h1, hc]
    | some b => simp [dataAccess, h1, hc]
  · simp [dataAccess, h1]

/-- C5 witness: a fresh single-batch loader hands out the produced batch,
and a ten-batch loader hands out the loader itself untouched. -/
theorem C5_data_accessor_witness :
    (dataAccess coraBatch ⟨1, none, 0⟩).1 = .batch coraBatch
    ∧ dataAccess coraBatch ⟨10, none, 0⟩ = (.loaderSelf, ⟨10, none, 0⟩) :=
  ⟨(C5_data_accessor coraBatch ⟨1, none, 0⟩).1 rfl rfl,
    (C5_data_accessor coraBatch ⟨10, none, 0⟩).2.2.1 (by decide)⟩

/-- Value of column c in row r of table t (cells are positional with respect
to t.cols; a missing column reads as the empty cell). -/
def Table.colVal (t : Table) (r : List String) (c : String) : String :=
  match t.cols.indexOf? c with
  | some i => r.getD i ""
  | none => ""

/-- Restriction of a table to the given columns, in the given order. -/
def selectCols (wanted : List String) (t : Table) : Table :=
  { cols := wanted, rows := t.rows.map (fun r => wanted.map (t.colVal r)) }

/-- Modelled from the spec: sections 4.3 and 8 - heterogeneous attribute
selection.  For each element type of the selection mapping that the raw wire
batch carries, the assembled batch holds a table with exactly the identifier
columns followed by that type's requested attributes; element types omitted
from the mapping do not appear in the assembled batch. -/
def assembleHetero (idCols : List String) :
    List (String × List String) → List (String × Table) → List (String × Table)
  | [], _ => []
  | ta :: rest, raw =>
    match raw.lookup ta.1 with
    | some t => (ta.1, selectCols (idCols ++ ta.2) t) :: assembleHetero idCols rest raw
    | none => assembleHetero idCols rest raw

theorem lookup_none_of_not_mem_keys {β : Type} (ty : String) :
    ∀ (l : List (String × β)), ty ∉ l.map Prod.fst → l.lookup ty = none := by
  intro l
  induction l with
  | nil => intro _; rfl
  | cons p rest ih =>
    intro h
    obtain ⟨k, v⟩ := p
    simp only [List.map_cons, List.mem_cons, not_or] at h
    have hb : (ty == k) = false := beq_eq_false_iff_ne.mpr h.1
    simp [List.lookup, hb, ih h.2]

theorem assembleHetero_keys (idCols : List String) :
    ∀ (sel : List (String × List String)) (raw : List (String × Table)),
      (∀ ty ∈ sel.map Prod.fst, (raw.lookup ty).isSome = true) →
      (assembleHetero idCols sel raw).map Prod.fst = sel.map Prod.fst := by
  intro sel
  induction sel with
  | nil => intro raw _; rfl
  | cons ta rest ih =>
    intro raw hpres
    obtain ⟨t, ht⟩ := Option.isSome_iff_exists.mp (hpres ta.1 (by simp))
    have hrest : ∀ ty ∈ rest.map Prod.fst, (raw.lookup ty).isSome = true :=
      fun ty hty => hpres ty (by simp [hty])
    simp [assembleHetero, ht, ih raw hrest]

theorem assembleHetero_cols (idCols : List String) :
    ∀ (sel : List (String × List String)) (raw : List (String × Table))
      (ty : String) (T : Table), (ty, T) ∈ assembleHetero idCols sel raw →
      ∃ attrs, (ty, attrs) ∈ sel ∧ T.cols = idCols ++ attrs := by
  intro sel
  induction sel with
  | nil => intro raw ty T h; exact absurd h (by simp [assembleHetero])
  | cons ta rest ih =>
    intro raw ty T h
    rw [assembleHetero] at h
    cases hlook : raw.lookup ta.1 with
    | none =>
      rw [hlook] at h
      obtain ⟨attrs, hmem, hcols⟩ := ih raw ty T h
      exact ⟨attrs, List.mem_cons_of_mem _ hmem, hcols⟩
    | some t =>
      rw [hlook] at h
      rcases List.mem_cons.mp h with heq | hmem
      · refine ⟨ta.2, ?_, ?_⟩
        · rw [show ty = ta.1 from congrArg Prod.fst heq]
          exact List.mem_cons_self _ _
        · rw [show T = selectCols (idCols ++ ta.2) t from congrArg Prod.snd heq]
          rfl
      · obtain ⟨attrs, hmem2, hcols⟩ := ih raw ty T hmem
        exact ⟨attrs, List.mem_cons_of_mem _ hmem2, hcols⟩

/-- C6: under a heterogeneous selection mapping whose types the raw batch
carries, the assembled batch presents exactly the mapped element types, each
per-type table shows exactly the identifier columns followed by that type's
requested attributes, and a type omitted from the mapping is absent from the
batch. -/
theorem C6_hetero_selection (idCols : List String)
    (sel : List (String × List String)) (raw : List (String × Table))
    (hpres : ∀ ty ∈ sel.map Prod.fst, (raw.lookup ty).isSome = true) :
    (assembleHetero idCols sel raw).map Prod.fst = sel.map Prod.fst
    ∧ (∀ ty T, (ty, T) ∈ assembleHetero idCols sel raw →
        ∃ attrs, (ty, attrs) ∈ sel ∧ T.cols = idCols ++ attrs)
    ∧ (∀ ty, ty ∉ sel.map Prod.fst →
        (assembleHetero idCols sel raw).lookup ty = none) := by
  refine ⟨assembleHetero_keys idCols sel raw hpres,
    fun ty T h => assembleHetero_cols idCols sel raw ty T h, fun ty hty => ?_⟩
  apply lookup_none_of_not_mem_keys
  rw [assembleHetero_keys idCols sel raw hpres]
  exact hty

/-- Raw heterogeneous wire batch of the loader3 and loader4 scenario: types
v0, v1 and v2 with their full attribute sets. -/
def rawHeteroBatch : List (String × Table) :=
  [("v0", { cols := ["vid", "x", "y"], rows := [["135266304", "-1.39324", "4"]] }),
    ("v1", { cols := ["vid", "x"], rows := [["181403652", "1.28591"]] }),
    ("v2", { cols := ["vid", "x"], rows := [["203423744", "0.5"]] })]

/-- C6 witness: the recorded loader3 selection keeps exactly v0 with columns
vid, x, y and v1 with columns vid, x, while v2 is absent from the batch. -/
theorem C6_hetero_selection_witness :
    (assembleHetero ["vid"] [("v0", ["x", "y"]), ("v1", ["x"])] rawHeteroBatch).map Prod.fst
        = [("v0", ["x", "y"]), ("v1", ["x"])].map Prod.fst
    ∧ (assembleHetero ["vid"] [("v0", ["x", "y"]), ("v1", ["x"])] rawHeteroBatch).lookup "v2"
        = none := by
  have h := C6_hetero_selection ["vid"] [("v0", ["x", "y"]), ("v1", ["x"])] rawHeteroBatch
    (by decide)
  exact ⟨h.1, h.2.2 "v2" (by decide)⟩

/-- Shapes (row count, column count) of the iteration steps recorded for
vertex_loader1 in src/test2_callback_fn_vertexloader.ipynb: the loader was
constructed with num_batches = 10 and attributes id, x, y over the default
HTTP transport on the 2708-vertex Cora graph, yet the recorded run delivered
a single step of shape (2708, 4) holding every vertex. -/
def vertexLoader1RecordedShapes : List (Nat × Nat) := [(2708, 4)]

/-- Modelled from the spec: section 3 Batch - an assembled homogeneous
vertex batch carries the stable row identifier column vid followed by the
requested attributes (matching the recorded header vid, id, x, y). -/
def vertexBatchCols (attrs : List String) : List String := "vid" :: attrs

/-- C9: the recorded vertex_loader1 run delivered one single step carrying
all 2708 rows, while the partition plan of the spec for num_batches = 10
over 2708 vertices has exactly 10 partitions whose sizes sum to 2708, and
the assembled rows carry vid plus the requested attributes id, x, y - the
recorded run therefore did not split the data as the claim demands. -/
theorem C9_recorded_run_not_split :
    vertexLoader1RecordedShapes.length = 1
    ∧ (vertexLoader1RecordedShapes.map Prod.fst).sum = 2708
    ∧ (chunks (ceilDiv 2708 10) (List.range 2708)).length = 10
    ∧ ((chunks (ceilDiv 2708 10) (List.range 2708)).map List.length).sum = 2708
    ∧ vertexBatchCols ["id", "x", "y"] = ["vid", "id", "x", "y"] := by
  have hk : ceilDiv 2708 10 = 271 := by norm_num [ceilDiv]
  refine ⟨rfl, rfl, ?_, ?_, rfl⟩
  · rw [hk, chunks_length 271 (by omega), List.length_range]
    norm_num [ceilDiv]
  · rw [← List.length_flatten,
      chunks_flatten (ceilDiv 2708 10) (by rw [hk]; omega), List.length_range]

end QA4137
